import Mathlib

/-!
Shallow embedding of the mxsniff program (mxsniff/__init__.py and the
static data in mxsniff/providers.py), together with theorems checking its
natural-language specification.

Conventions:
* Python dicts keyed by strings are embedded as association lists with
  overwrite-on-insert semantics.
* External collaborators (the DNS resolver, `tldextract`'s
  registered-domain extraction, `email.utils.parseaddr`, `pyisemail.is_email`
  and `urllib.parse.urlparse`) are parameters of the embedded functions.
* Fallible code returns `Option`/`Except`; raising `MxLookupError` is the
  `Except.error` case.
-/

deriving instance DecidableEq for Except

namespace Mxsniff

/-- Association-list lookup, embedding Python `d[k]` / `k in d` on a dict. -/
def assocLookup {α : Type} : List (String × α) → String → Option α
  | [], _ => none
  | (k, v) :: rest, key => if k = key then some v else assocLookup rest key

/-- Association-list overwrite-or-append, embedding Python `d[k] = v`. -/
def assocSet {α : Type} : List (String × α) → String → α → List (String × α)
  | [], key, v => [(key, v)]
  | (k, w) :: rest, key, v =>
      if k = key then (k, v) :: rest else (k, w) :: assocSet rest key v

/-- Python `str.lower()` (ASCII case folding, which is all the program's
inputs use). -/
def lowerString (s : String) : String :=
  String.mk (s.data.map Char.toLower)

/-- Python `s.split(sep)` for a one-character separator, on the character
list: `""` splits to `[""]`, adjacent separators yield empty pieces. -/
def splitOnChar (sep : Char) : List Char → List (List Char)
  | [] => [[]]
  | x :: xs =>
      let r := splitOnChar sep xs
      if x = sep then [] :: r
      else
        match r with
        | y :: ys => (x :: y) :: ys
        | [] => [[x]]

/-- Break a character list at the first occurrence of `sep`: the part
before it and, when `sep` occurs, the part after it. -/
def breakFirst (sep : Char) : List Char → List Char × Option (List Char)
  | [] => ([], none)
  | x :: xs =>
      if x = sep then ([], some xs)
      else
        let r := breakFirst sep xs
        (x :: r.1, r.2)

/-- Embedding of Python `s.split(sep, 1)` for a one-character separator: a
list of one element (no separator present) or two elements (text before
the first separator, and everything after it). -/
def split1 (s : String) (sep : Char) : List String :=
  match breakFirst sep s.data with
  | (a, none) => [String.mk a]
  | (a, some b) => [String.mk a, String.mk b]

/-- Whether the two-character sequence `a b` occurs in the list; embeds
Python `'//' in s`. -/
def containsSeq2 (a b : Char) : List Char → Bool
  | x :: y :: rest => (x = a && y = b) || containsSeq2 a b (y :: rest)
  | _ => false

/-- The whitespace stripped by Python `str.strip()` (ASCII part). -/
def isPySpace (c : Char) : Bool :=
  c = ' ' || c = '\t' || c = '\n' || c = '\r' || c = '\x0b' || c = '\x0c'

/-- Python `str.strip()`. -/
def pythonStrip (s : String) : String :=
  String.mk (((s.data.dropWhile isPySpace).reverse.dropWhile isPySpace).reverse)

/-! ### WildcardDomainDict (mxsniff/__init__.py lines 36-104)

The Python class stores a nested dict; a reserved sentinel key `_value`
holds the value at a node.  We embed a node as an optional value plus an
association list of children; the wildcard label `*` is an ordinary child
key, exactly as in the source. -/

/-- A node of the nested-dict tree used by `WildcardDomainDict`. -/
inductive Node (α : Type) : Type where
  | node : Option α → List (String × Node α) → Node α

/-- The value stored at a node (the `_value` sentinel entry). -/
def Node.value {α : Type} : Node α → Option α
  | .node v _ => v

/-- The children of a node (all dict entries other than `_value`). -/
def Node.children {α : Type} : Node α → List (String × Node α)
  | .node _ cs => cs

/-- Lookup of a child by label, embedding `item in tree` / `tree[item]`. -/
def findChild {α : Type} : List (String × Node α) → String → Option (Node α)
  | [], _ => none
  | (k, v) :: rest, key => if k = key then some v else findChild rest key

/-- Replace the child stored under an existing label. -/
def replaceChild {α : Type} : List (String × Node α) → String → Node α →
    List (String × Node α)
  | [], _, _ => []
  | (k, v) :: rest, key, n =>
      if k = key then (k, n) :: rest else (k, v) :: replaceChild rest key n

/-- The `__setitem__` walk over already-split parts: walk/create a node for
each label, then store the value at the terminal node. -/
def insertParts {α : Type} : Node α → List String → α → Node α
  | .node _ cs, [], v => .node (some v) cs
  | .node w cs, k :: ks, v =>
      match findChild cs k with
      | some c => .node w (replaceChild cs k (insertParts c ks v))
      | none => .node w (cs ++ [(k, insertParts (.node none []) ks v)])

/-- The `__getitem__` walk over already-split parts (lines 84-98).  At each
label: take the literal child if it exists and (at the last label) holds a
value; otherwise fall back to the wildcard child `*`; otherwise fail.
After the walk, return the value at the reached node if present. -/
def lookupParts {α : Type} : Node α → List String → Option α
  | .node v _, [] => v
  | .node _ cs, k :: ks =>
      match findChild cs k with
      | some c =>
          if ks.isEmpty then
            match c.value with
            | some x => some x
            | none =>
                match findChild cs "*" with
                | some w => w.value
                | none => none
          else lookupParts c ks
      | none =>
          match findChild cs "*" with
          | some w => lookupParts w ks
          | none => none

/-- `WildcardDomainDict._makeparts`: lowercase, split on `.`, drop empty
labels (handles trailing dots), reverse. -/
def makeparts (key : String) : List String :=
  ((((splitOnChar '.' (lowerString key).data).map String.mk).filter
    (fun p => p ≠ "")).reverse)

/-- The `WildcardDomainDict` wrapper object. -/
structure WildcardDomainDict (α : Type) : Type where
  tree : Node α

/-- An empty `WildcardDomainDict`. -/
def WildcardDomainDict.empty {α : Type} : WildcardDomainDict α := ⟨.node none []⟩

/-- `WildcardDomainDict.__setitem__`. -/
def WildcardDomainDict.setItem {α : Type} (d : WildcardDomainDict α)
    (key : String) (v : α) : WildcardDomainDict α :=
  ⟨insertParts d.tree (makeparts key) v⟩

/-- `WildcardDomainDict.__getitem__`; `none` is the `KeyError` case. -/
def WildcardDomainDict.getItem {α : Type} (d : WildcardDomainDict α)
    (key : String) : Option α :=
  lookupParts d.tree (makeparts key)

/-- `WildcardDomainDict.get(key, default=None)` with the default default. -/
def WildcardDomainDict.get {α : Type} (d : WildcardDomainDict α)
    (key : String) : Option α :=
  d.getItem key

/-! ### canonical_email (lines 123-156)

`email.utils.parseaddr(x)[1]` and `pyisemail.is_email` are external; they
appear as the function parameters `pa` and `ie`. -/

/-- `canonical_email`.  Returns `none` when the extracted address fails the
validity check.  (The one-element `split1` case cannot occur when `ie`
guarantees an `@`; Python would raise a `ValueError` there.) -/
def canonical_email (pa : String → String) (ie : String → Bool)
    (email : String) (lowercase strip_periods : Bool)
    (substitute_domains : List (String × String)) : Option String :=
  let addr := pa email
  if ie addr then
    match split1 addr '@' with
    | [mailbox0, domain0] =>
        -- `mailbox[: mailbox.find('+')]` = the part before the first `+`
        let mailbox1 :=
          if '+' ∈ mailbox0.data then
            String.mk (mailbox0.data.takeWhile (fun c => c ≠ '+'))
          else mailbox0
        -- `mailbox.replace('.', '')`
        let mailbox2 :=
          if strip_periods && decide ('.' ∈ mailbox1.data) then
            String.mk (mailbox1.data.filter (fun c => c ≠ '.'))
          else mailbox1
        let mailbox3 := if lowercase then lowerString mailbox2 else mailbox2
        let domain1 := lowerString domain0
        let domain2 :=
          match assocLookup substitute_domains domain1 with
          | some d => d
          | none => domain1
        some (mailbox3 ++ "@" ++ domain2)
    | _ => none
  else none

/-! ### get_domain (lines 159-180)

`urlparse(x).netloc` is external (parameter `uh`), as is
`tldextract(x).registered_domain` (parameter `rd`). -/

/-- `get_domain`: extract a domain from an email address, URL or raw
domain, lowercased. -/
def get_domain (pa uh rd : String → String) (email_or_domain : String) :
    String :=
  let domain :=
    if '@' ∈ email_or_domain.data then
      -- `addr.split('@', 1)[-1]`
      (split1 (pa email_or_domain) '@').getLastD ""
    else if containsSeq2 '/' '/' email_or_domain.data then
      -- `urlparse(...).netloc.split(':')[0]`, reduced to its registered domain
      rd (String.mk ((uh email_or_domain).data.takeWhile (fun c => c ≠ ':')))
    else
      pythonStrip email_or_domain
  lowerString domain

/-! ### Provider registry (providers.py and lines 107-120, 183-194) -/

/-- The optional `canonical_flags` sub-dict of a provider entry; missing
keys default to false / empty, as `**flags` with keyword defaults does. -/
structure CanonicalFlags : Type where
  lowercase : Bool
  strip_periods : Bool
  substitute_domains : List (String × String)
deriving DecidableEq, Repr

/-- A provider entry of the static table.  `domains := []` embeds an entry
without a `'domains'` key; `public := false` is the `.get('public', False)`
default. -/
structure Provider : Type where
  mx : List String
  domains : List String
  title : Option String
  note : Option String
  url : Option String
  public : Bool
  canonical_flags : Option CanonicalFlags
deriving DecidableEq, Repr

/-- The public-field snapshot built by `provider_info`. -/
structure ProviderInfo : Type where
  name : String
  title : Option String
  note : Option String
  url : Option String
  public : Bool
deriving DecidableEq, Repr

/-- `provider_info(provider)`: a copy of the provider entry with only
public fields, or `none` for an unknown provider. -/
def provider_info (all_providers : List (String × Provider))
    (provider : String) : Option ProviderInfo :=
  match assocLookup all_providers provider with
  | some d => some ⟨provider, d.title, d.note, d.url, d.public⟩
  | none => none

/-- `__populate_dicts`: build `provider_mx` (wildcard trie over MX
patterns) and `provider_domains` (flat map of well-known mailbox domains)
from the provider table. -/
def populate_dicts (all_providers : List (String × Provider)) :
    WildcardDomainDict String × List (String × String) :=
  all_providers.foldl
    (fun acc np =>
      (np.2.mx.foldl (fun t dom => t.setItem dom np.1) acc.1,
       np.2.domains.foldl (fun l dom => assocSet l dom np.1) acc.2))
    (WildcardDomainDict.empty, [])

/-- The sub-table of `providers` (providers.py) consisting of exactly the
entries that carry a `'domains'` key, in source order: `apple-icloud`,
`gmx.com`, `google-gmail`, `outlook-hotmail`, `protonmail`, `yahoo-mail`
and `yandex`.  Every other entry of the table has no `'domains'` key and
therefore contributes nothing to the flat `provider_domains` map, so
`populate_dicts` applied to this sub-table yields the same
`provider_domains` as the full table does. -/
def providers_with_domains : List (String × Provider) :=
  [("apple-icloud",
    { mx := ["*.mail.icloud.com"]
      domains := ["icloud.com", "mac.com", "me.com"]
      title := some "Apple iCloud", note := none, url := none
      public := true
      canonical_flags := some ⟨true, false, []⟩ }),
   ("gmx.com",
    { mx := ["*.gmx.com", "*.gmx.net"]
      domains := ["gmx.com", "gmx.us"]
      title := some "GMX 1&1 Mail and Media", note := none, url := none
      public := true
      canonical_flags := none }),
   ("google-gmail",
    { mx := ["gmail-smtp-in.l.google.com", "*.gmail-smtp-in.l.google.com"]
      domains := ["gmail.com", "googlemail.com"]
      title := some "Gmail", note := none, url := some "https://gmail.com/"
      public := true
      canonical_flags := some ⟨true, true, [("googlemail.com", "gmail.com")]⟩ }),
   ("outlook-hotmail",
    { mx := ["*.hotmail.com"]
      domains := ["hotmail.com", "msn.com", "outlook.co", "outlook.com",
                  "live.com", "live.in"]
      title := some "Microsoft Outlook Hotmail", note := none, url := none
      public := true
      canonical_flags := some ⟨true, false, []⟩ }),
   ("protonmail",
    { mx := ["*.protonmail.ch"]
      domains := ["protonmail.com", "protonmail.ch"]
      title := some "Protonmail", note := none, url := none
      public := true
      canonical_flags := none }),
   ("yahoo-mail",
    { mx := ["*.am0.yahoodns.net", "*.mail.*.yahoodns.net", "*.mail.yahoo.co.jp"]
      domains := ["rocketmail.com", "yahoo.com", "yahoo.co.uk", "yahoo.co.in",
                  "ymail.com"]
      title := some "Yahoo Mail", note := none, url := none
      public := true
      canonical_flags := some ⟨true, false,
        [("rocketmail.com", "yahoo.com"), ("yahoo.co.uk", "yahoo.com"),
         ("yahoo.co.in", "yahoo.com"), ("ymail.com", "yahoo.com")]⟩ }),
   ("yandex",
    { mx := ["mx.yandex.net", "mx.yandex.ru"]
      domains := ["yandex.com", "yandex.ru"]
      title := some "Yandex", note := none, url := none
      public := true
      canonical_flags := some ⟨true, false, []⟩ })]

/-- The `public_domains` set of providers.py (a Python set literal; the
duplicated `'yahoo.com'` element collapses, membership is unchanged). -/
def public_domains_data : List String :=
  ["gmail.com", "googlemail.com", "hotmail.com", "icloud.com", "live.com",
   "live.in", "mac.com", "mailinator.com", "me.com", "msn.com", "outlook.co",
   "outlook.com", "protonmail.ch", "protonmail.com", "rocketmail.com",
   "yahoo.co.in", "yahoo.co.uk", "yahoo.com", "yandex.com", "yandex.ru",
   "ymail.com", "zoho.com"]

/-- `all_providers.get(matches[0], {}).get('canonical_flags', {})` -/
def canonicalFlagsOf (all_providers : List (String × Provider))
    (name : String) : CanonicalFlags :=
  match assocLookup all_providers name with
  | some p =>
      match p.canonical_flags with
      | some f => f
      | none => ⟨false, false, []⟩
  | none => ⟨false, false, []⟩

/-! ### The sniff engine (lines 197-312) -/

/-- Outcome of `resolver.query(domain, 'MX')`: a list of raw
(preference, exchange-name-text) pairs; the three "no records" exception
classes (`NoAnswer`, `NXDOMAIN`, `NoNameservers`); or any other
`DNSException` carrying a message. -/
inductive DnsOutcome : Type where
  | answers : List (Nat × String) → DnsOutcome
  | noRecords : DnsOutcome
  | failure : String → DnsOutcome

/-- `MxLookupError(e, domain)`. -/
structure MxLookupError : Type where
  message : String
  domain : String
deriving DecidableEq, Repr

/-- The external collaborators of a sniff run. -/
structure Externals : Type where
  /-- `email.utils.parseaddr(x)[1]` -/
  pa : String → String
  /-- `urllib.parse.urlparse(x).netloc` -/
  uh : String → String
  /-- `tldextract(x).registered_domain` -/
  rd : String → String
  /-- `pyisemail.is_email(x)` -/
  ie : String → Bool
  /-- `dns.resolver.Resolver().query(x, 'MX')` -/
  dns : String → DnsOutcome

/-- `exchange.to_text(omit_final_dot=True)`: drop one final dot — except
for the root name, which `dns.name.Name.to_text` always renders as `"."`
(this is how a null MX target survives as `"."`). -/
def stripFinalDot (s : String) : String :=
  if s = "." then s
  else
    match s.data.getLast? with
    | some '.' => String.mk s.data.dropLast
    | _ => s

/-- Lexicographic code-point comparison of character lists; Python's `<`
on strings. -/
def charListLt : List Char → List Char → Bool
  | [], [] => false
  | [], _ :: _ => true
  | _ :: _, [] => false
  | a :: as, b :: bs =>
      a.toNat < b.toNat || (a.toNat == b.toNat && charListLt as bs)

/-- The strict comparison used by Python `sorted` on the
(preference, hostname) tuples: lexicographic on the pair. -/
def mxLt (a b : Nat × String) : Bool :=
  a.1 < b.1 || (a.1 == b.1 && charListLt a.2.data b.2.data)

/-- Stable insertion into a sorted list: keep going past strictly smaller
elements. -/
def insertSorted {α : Type} (lt : α → α → Bool) (x : α) : List α → List α
  | [] => [x]
  | y :: ys => if lt y x then y :: insertSorted lt x ys else x :: y :: ys

/-- Stable insertion sort; embeds Python `sorted` (a stable sort under the
same total tuple order, and tuples comparing equal here are identical, so
every comparison sort agrees). -/
def insertionSort {α : Type} (lt : α → α → Bool) : List α → List α
  | [] => []
  | x :: xs => insertSorted lt x (insertionSort lt xs)

/-- Lines 254-257: lowercase each exchange, drop its final dot, and sort
the (preference, exchange) pairs. -/
def processAnswers (raw : List (Nat × String)) : List (Nat × String) :=
  insertionSort mxLt (raw.map (fun a => (a.1, lowerString (stripFinalDot a.2))))

/-- The running state of the MX-scanning loop (lines 258-267). -/
structure ScanState : Type where
  -- the local variable `matches`; `matches` is a reserved Lean token
  matched : List String
  rproviders : List (Option ProviderInfo)
  tld : List String
deriving DecidableEq, Repr

/-- One iteration of the MX-scanning loop: collect the exchange's
registrable domain (unique, in first-seen order) and, if its hostname
matches a known provider not yet matched, record that provider. -/
def scanStep (rd : String → String) (provider_mx : WildcardDomainDict String)
    (all_providers : List (String × Provider)) (st : ScanState)
    (ans : Nat × String) : ScanState :=
  let rdomain := rd ans.2
  let tld1 := if rdomain ∈ st.tld then st.tld else st.tld ++ [rdomain]
  match provider_mx.get ans.2 with
  | some provider =>
      -- Python `if provider and provider not in matches`: the empty string
      -- is falsy, hence the extra `provider ≠ ""` test.
      if provider ≠ "" ∧ provider ∉ st.matched then
        { matched := st.matched ++ [provider],
          rproviders := st.rproviders ++ [provider_info all_providers provider],
          tld := tld1 }
      else { st with tld := tld1 }
  | none => { st with tld := tld1 }

/-- The result record assembled by `mxsniff` (lines 301-309).  The dict key
`match` is a Lean keyword, so the field is named `matched`. -/
structure SniffResult : Type where
  query : String
  domain : String
  matched : List String
  mx : List (Nat × String)
  providers : List (Option ProviderInfo)
  public : Bool
  canonical : Option String
deriving DecidableEq, Repr

/-- A caller-supplied cache (a Python dict keyed by domain), or `none`. -/
abbrev Cache : Type := List (String × SniffResult)

/-- `domain in cache` / `cache[domain]` when a cache was supplied. -/
def cacheLookup (cache : Option Cache) (domain : String) : Option SniffResult :=
  match cache with
  | some c => assocLookup c domain
  | none => none

/-- `cache[domain] = result` when a cache was supplied. -/
def cacheStore (cache : Option Cache) (domain : String) (r : SniffResult) :
    Option Cache :=
  match cache with
  | some c => some (assocSet c domain r)
  | none => none

/-- Lines 280-291: when no provider matched, classify as `self` (the
queried domain's registrable domain - here `selfDomain` - occurs among the
MX answers' registrable domains), else `nullmx` (the first sorted answer's
hostname is `.`), else `unknown` (answers exist), else `nomx`. -/
def classifyMatches (selfDomain : String) (matches0 tld : List String)
    (mx_answers : List (Nat × String)) : List String :=
  let matches1 :=
    if matches0.isEmpty then
      if selfDomain ∈ tld then ["self"] else []
    else matches0
  if matches1.isEmpty then
    match mx_answers with
    | [] => ["nomx"]
    | (_, h) :: _ => if h = "." then ["nullmx"] else ["unknown"]
  else matches1

/-- Lines 280-309: the classification of an empty match list ('self',
'nullmx', 'unknown', 'nomx'), the canonical-email computation driven by
the first match's flags, and the result assembly. -/
def classifyAndAssemble (ext : Externals)
    (all_providers : List (String × Provider)) (public_domains : List String)
    (email_or_domain domain : String) (matches0 : List String)
    (rproviders : List (Option ProviderInfo)) (tld : List String)
    (mx_answers : List (Nat × String)) : SniffResult :=
  let matches2 := classifyMatches (ext.rd domain) matches0 tld mx_answers
  let canonical :=
    match matches2 with
    | m :: _ =>
        let fl := canonicalFlagsOf all_providers m
        canonical_email ext.pa ext.ie email_or_domain fl.lowercase
          fl.strip_periods fl.substitute_domains
    | [] =>
        -- Lines 298-299; dead code, since `matches2` is never empty.
        canonical_email ext.pa ext.ie email_or_domain false false []
  { query := email_or_domain
    domain := domain
    matched := matches2
    mx := mx_answers
    providers := rproviders
    -- Python crashes on a `None` entry here; that case is unreachable for
    -- registry-derived inputs and is embedded as `false`.
    public := decide (domain ∈ public_domains)
      || rproviders.any (fun p => match p with | some q => q.public | none => false)
    canonical := canonical }

/-- `mxsniff`.  Returns the outcome (a result, or a raised
`MxLookupError`), the cache as left behind by the call, and the list of
domains for which a DNS MX query was issued. -/
def mxsniff (ext : Externals) (all_providers : List (String × Provider))
    (provider_mx : WildcardDomainDict String)
    (provider_domains : List (String × String)) (public_domains : List String)
    (email_or_domain : String) (ignore_errors : Bool) (cache : Option Cache)
    (use_static_domains : Bool) :
    Except MxLookupError SniffResult × Option Cache × List String :=
  let domain := get_domain ext.pa ext.uh ext.rd email_or_domain
  match cacheLookup cache domain with
  | some r0 => (.ok { r0 with query := email_or_domain }, cache, [])
  | none =>
      match (if use_static_domains then assocLookup provider_domains domain else none) with
      | some provider =>
          let result := classifyAndAssemble ext all_providers public_domains
            email_or_domain domain [provider]
            [provider_info all_providers provider] [] []
          (.ok result, cacheStore cache domain result, [])
      | none =>
          match ext.dns domain with
          | .answers raw =>
              let mx_answers := processAnswers raw
              let st := mx_answers.foldl
                (scanStep ext.rd provider_mx all_providers) ⟨[], [], []⟩
              let result := classifyAndAssemble ext all_providers public_domains
                email_or_domain domain st.matched st.rproviders st.tld mx_answers
              (.ok result, cacheStore cache domain result, [domain])
          | .noRecords =>
              let result := classifyAndAssemble ext all_providers public_domains
                email_or_domain domain [] [] [] []
              (.ok result, cacheStore cache domain result, [domain])
          | .failure e =>
              if ignore_errors then
                let result := classifyAndAssemble ext all_providers public_domains
                  email_or_domain domain [] [] [] []
                (.ok result, cacheStore cache domain result, [domain])
              else (.error ⟨e, domain⟩, cache, [domain])

/-! ### Spec-side definitions

These follow the spec's wording (not the source) and are only compared
against the source-derived definitions above. -/

/-- Remove at most one trailing dot. -/
def dropOneTrailingDot (s : String) : String :=
  match s.data.getLast? with
  | some '.' => String.mk s.data.dropLast
  | _ => s

/-- The spec's matching relation for wildcard-free patterns: `h` equals
`p` case-insensitively, ignoring at most one optional trailing dot. -/
def dotInsensitiveEq (h p : String) : Prop :=
  dropOneTrailingDot (lowerString h) = dropOneTrailingDot (lowerString p)

/-- Spec-side wildcard matching over label lists: a `*` label matches
exactly one hostname label, every other label matches only itself. -/
def patternMatches : List String → List String → Bool
  | [], [] => true
  | p :: ps, h :: hs => (p == "*" || p == h) && patternMatches ps hs
  | _, _ => false

/-- The registrable domains collected across the MX answers, unique and in
first-seen order (the spec's "self-host fingerprint"). -/
def collectTlds (rd : String → String) (mxs : List (Nat × String)) :
    List String :=
  mxs.foldl (fun acc a => if rd a.2 ∈ acc then acc else acc ++ [rd a.2]) []

/-- The canonicalization pipeline as the spec words it (4.5 steps 4-8):
truncate the mailbox at the first `+`; if `strip_periods`, remove all `.`
from the mailbox; if `lowercase`, lowercase the mailbox; always lowercase
the domain; substitute the lowercased domain when mapped; rejoin. -/
def specCanonicalSteps (mailbox domain : String) (lowercase strip_periods : Bool)
    (substitute_domains : List (String × String)) : String :=
  let m1 := String.mk (mailbox.data.takeWhile (fun c => c ≠ '+'))
  let m2 := if strip_periods then String.mk (m1.data.filter (fun c => c ≠ '.')) else m1
  let m3 := if lowercase then lowerString m2 else m2
  let d1 := lowerString domain
  let d2 :=
    match assocLookup substitute_domains d1 with
    | some x => x
    | none => d1
  m3 ++ "@" ++ d2

/-! ### Lemmas about the wildcard trie -/

/-- Looking up any hostname in a trie holding a single wildcard-free
pattern succeeds exactly on the pattern's own label list. -/
theorem lookup_insert_single {α : Type} (v : α) :
    ∀ ps hs : List String, "*" ∉ ps →
      lookupParts (insertParts (Node.node none []) ps v) hs
        = if hs = ps then some v else none := by
  intro ps
  induction ps with
  | nil =>
      intro hs _
      cases hs with
      | nil => simp [insertParts, lookupParts]
      | cons x xs => simp [insertParts, lookupParts, findChild]
  | cons p ps ih =>
      intro hs hw
      have hp : p ≠ "*" := fun h => hw (by simp [h])
      have hw' : "*" ∉ ps := fun h => hw (List.mem_cons_of_mem _ h)
      cases hs with
      | nil => simp [insertParts, lookupParts]
      | cons x xs =>
          by_cases hx : p = x
          · subst hx
            cases xs with
            | nil =>
                cases ps with
                | nil => simp [insertParts, lookupParts, findChild, Node.value]
                | cons q qs =>
                    simp [insertParts, lookupParts, findChild, Node.value, hp]
            | cons y ys =>
                simp [insertParts, lookupParts, findChild, ih (y :: ys) hw']
          · have hne : ¬(x = p ∧ xs = ps) := fun hc => hx hc.1.symm
            simp [insertParts, lookupParts, findChild, hx, hp, hne]

/-- A successful lookup in a single-pattern trie consumes exactly one
hostname label per pattern label (wildcards included). -/
theorem lookup_insert_length {α : Type} (v : α) :
    ∀ ps hs : List String,
      lookupParts (insertParts (Node.node none []) ps v) hs = some v →
      hs.length = ps.length := by
  intro ps
  induction ps with
  | nil =>
      intro hs h
      cases hs with
      | nil => rfl
      | cons x xs => simp [insertParts, lookupParts, findChild] at h
  | cons p ps ih =>
      intro hs h
      cases hs with
      | nil => simp [insertParts, lookupParts] at h
      | cons x xs =>
          simp only [List.length_cons, Nat.succ_inj]
          by_cases hx : p = x
          · subst hx
            cases xs with
            | nil =>
                cases ps with
                | nil => rfl
                | cons q qs =>
                    by_cases hps : p = "*"
                    · simp [insertParts, lookupParts, findChild, Node.value, hps] at h
                    · simp [insertParts, lookupParts, findChild, Node.value, hps] at h
            | cons y ys =>
                simp only [insertParts, lookupParts, findChild] at h
                simp at h
                exact ih (y :: ys) h
          · by_cases hps : p = "*"
            · subst hps
              simp only [insertParts, lookupParts, findChild] at h
              rw [if_neg hx] at h
              simp at h
              cases xs with
              | nil =>
                  cases ps with
                  | nil => rfl
                  | cons q qs => simp [insertParts, lookupParts, Node.value] at h
              | cons y ys => exact ih (y :: ys) h
            · simp [insertParts, lookupParts, findChild, hx, hps] at h

/-! ### Claims C2, C3, C10: the wildcard lookup structure -/

/-- C2: after setting `*.example.com → P`, `get 'mail.example.com'`
returns `P` and `get 'a.b.example.com'` fails; after additionally setting
`*.*.example.com → Q`, `get 'a.b.example.com'` returns `Q`; and in general
a wildcard label matches exactly one hostname label: a hostname matched by
a single registered pattern has exactly as many labels as the pattern. -/
theorem claim_C2 (P Q : String) :
    (WildcardDomainDict.empty.setItem "*.example.com" P).get "mail.example.com"
        = some P
    ∧ (WildcardDomainDict.empty.setItem "*.example.com" P).get "a.b.example.com"
        = none
    ∧ ((WildcardDomainDict.empty.setItem "*.example.com" P).setItem
        "*.*.example.com" Q).get "a.b.example.com" = some Q
    ∧ (∀ p h v : String,
        (WildcardDomainDict.empty.setItem p v).get h = some v →
        (makeparts h).length = (makeparts p).length) := by
  refine ⟨rfl, rfl, rfl, ?_⟩
  intro p h v hget
  exact lookup_insert_length v (makeparts p) (makeparts h) hget

/-- Witness for C2's universally quantified conjunct at a concrete input. -/
theorem claim_C2_witness :
    (WildcardDomainDict.empty.setItem "*.example.com" "P").get "mail.example.com"
        = some "P"
    ∧ (makeparts "mail.example.com").length = (makeparts "*.example.com").length := by
  refine ⟨(claim_C2 "P" "Q").1, ?_⟩
  exact (claim_C2 "P" "Q").2.2.2 "*.example.com" "mail.example.com" "P"
    (claim_C2 "P" "Q").1

/-- C3 as stated fails: the hostname `example..com` is not equal to the
wildcard-free pattern `example.com` case-insensitively ignoring one
optional trailing dot, yet lookup returns the pattern's value, because
`_makeparts` discards every empty label, not just a trailing one. -/
theorem claim_C3_counterexample :
    (WildcardDomainDict.empty.setItem "example.com" "v").get "example..com"
        = some "v"
    ∧ ¬ dotInsensitiveEq "example..com" "example.com" := by
  constructor
  · decide
  · unfold dotInsensitiveEq
    decide

/-- C3 amended: for a wildcard-free pattern `p`, `get h` returns the value
stored for `p` iff `h` and `p` have identical label sequences after
lowercasing, splitting on `.` and discarding all empty labels (equality
up to case and one trailing dot is sufficient but not necessary). -/
theorem claim_C3_amended (p h v : String) (hw : "*" ∉ makeparts p) :
    (WildcardDomainDict.empty.setItem p v).get h = some v
      ↔ makeparts h = makeparts p := by
  show lookupParts (insertParts (Node.node none []) (makeparts p) v) (makeparts h)
      = some v ↔ makeparts h = makeparts p
  rw [lookup_insert_single v (makeparts p) (makeparts h) hw]
  by_cases hh : makeparts h = makeparts p <;> simp [hh]

/-- Witness for C3's amended theorem at a concrete input. -/
theorem claim_C3_witness :
    "*" ∉ makeparts "example.com"
    ∧ ((WildcardDomainDict.empty.setItem "example.com" "v").get "Example.com."
          = some "v"
        ↔ makeparts "Example.com." = makeparts "example.com") := by
  refine ⟨by decide, ?_⟩
  exact claim_C3_amended "example.com" "Example.com." "v" (by decide)

/-- C10: trie lookup descends greedily — at a non-final label the literal
child is taken whenever it exists, with no backtracking to a wildcard
sibling — so with `a.b.com` and `c.*.com` registered, `c.b.com` matches
the pattern `c.*.com` label-wise yet lookup fails, while `c.x.com` still
reaches the wildcard pattern's value. -/
theorem claim_C10 :
    (∀ (cs : List (String × Node String)) (w : Option String) (x : String)
        (xs : List String) (c : Node String),
        xs ≠ [] → findChild cs x = some c →
        lookupParts (Node.node w cs) (x :: xs) = lookupParts c xs)
    ∧ patternMatches (makeparts "c.*.com") (makeparts "c.b.com") = true
    ∧ ((WildcardDomainDict.empty.setItem "a.b.com" "A").setItem "c.*.com" "C").get
        "c.b.com" = none
    ∧ ((WildcardDomainDict.empty.setItem "a.b.com" "A").setItem "c.*.com" "C").get
        "c.x.com" = some "C" := by
  refine ⟨?_, by decide, by decide, by decide⟩
  intro cs w x xs c hxs hfind
  cases xs with
  | nil => exact absurd rfl hxs
  | cons y ys =>
      simp only [lookupParts]
      rw [hfind]
      rfl

/-- Witness for C10's universally quantified conjunct at a concrete
input. -/
theorem claim_C10_witness :
    lookupParts (Node.node (none : Option String) [("com", Node.node none [])])
        ["com", "x"]
      = lookupParts (Node.node (none : Option String) []) ["x"] := by
  exact claim_C10.1 [("com", Node.node none [])] none "com" ["x"]
    (Node.node none []) (List.cons_ne_nil "x" []) rfl

/-! ### Lemmas about the sniff engine -/

theorem scanStep_tld (rd : String → String) (pmx : WildcardDomainDict String)
    (aps : List (String × Provider)) (st : ScanState) (a : Nat × String) :
    (scanStep rd pmx aps st a).tld
      = if rd a.2 ∈ st.tld then st.tld else st.tld ++ [rd a.2] := by
  unfold scanStep
  cases hg : pmx.get a.2 with
  | none => rfl
  | some p => by_cases hp : p ≠ "" ∧ p ∉ st.matched <;> simp [hp]

theorem scanStep_matched_none (rd : String → String)
    (pmx : WildcardDomainDict String) (aps : List (String × Provider))
    (st : ScanState) (a : Nat × String) (h : pmx.get a.2 = none) :
    (scanStep rd pmx aps st a).matched = st.matched
    ∧ (scanStep rd pmx aps st a).rproviders = st.rproviders := by
  unfold scanStep
  rw [h]
  exact ⟨rfl, rfl⟩

theorem scan_fold_tld (rd : String → String) (pmx : WildcardDomainDict String)
    (aps : List (String × Provider)) (mxs : List (Nat × String)) :
    ∀ st : ScanState,
      (mxs.foldl (scanStep rd pmx aps) st).tld
        = mxs.foldl (fun acc a => if rd a.2 ∈ acc then acc else acc ++ [rd a.2])
            st.tld := by
  induction mxs with
  | nil => intro st; rfl
  | cons a as ih =>
      intro st
      simp only [List.foldl_cons]
      rw [ih (scanStep rd pmx aps st a), scanStep_tld]

theorem scan_fold_matched_none (rd : String → String)
    (pmx : WildcardDomainDict String) (aps : List (String × Provider))
    (mxs : List (Nat × String)) (h : ∀ a ∈ mxs, pmx.get a.2 = none) :
    ∀ st : ScanState,
      (mxs.foldl (scanStep rd pmx aps) st).matched = st.matched
      ∧ (mxs.foldl (scanStep rd pmx aps) st).rproviders = st.rproviders := by
  induction mxs with
  | nil => intro st; exact ⟨rfl, rfl⟩
  | cons a as ih =>
      intro st
      have ha := h a (List.mem_cons_self a as)
      have h' : ∀ b ∈ as, pmx.get b.2 = none := fun b hb =>
        h b (List.mem_cons_of_mem _ hb)
      have hs := scanStep_matched_none rd pmx aps st a ha
      simp only [List.foldl_cons]
      rcases ih h' (scanStep rd pmx aps st a) with ⟨h1, h2⟩
      rw [h1, h2, hs.1, hs.2]
      exact ⟨rfl, rfl⟩

theorem classifyMatches_ne_nil (s : String) (m0 tld : List String)
    (mxs : List (Nat × String)) : classifyMatches s m0 tld mxs ≠ [] := by
  unfold classifyMatches
  cases m0 with
  | cons p m0r => simp
  | nil =>
      by_cases hs : s ∈ tld
      · simp [hs]
      · simp only [List.isEmpty_nil, if_true, hs, if_false]
        cases mxs with
        | nil => simp
        | cons a as =>
            obtain ⟨p, h⟩ := a
            by_cases hh : h = "." <;> simp [hh]

theorem classifyMatches_empty (s : String) (tld : List String)
    (mxs : List (Nat × String)) :
    classifyMatches s [] tld mxs
      = if s ∈ tld then ["self"]
        else
          match mxs with
          | [] => ["nomx"]
          | (_, h) :: _ => if h = "." then ["nullmx"] else ["unknown"] := by
  unfold classifyMatches
  by_cases hm : s ∈ tld <;> simp [hm]

theorem classifyMatches_cons (s p : String) (m0 tld : List String)
    (mxs : List (Nat × String)) :
    classifyMatches s (p :: m0) tld mxs = p :: m0 := rfl

theorem classifyAndAssemble_matched (ext : Externals)
    (aps : List (String × Provider)) (pubs : List String) (q d : String)
    (m0 : List String) (rp : List (Option ProviderInfo)) (tld : List String)
    (mxs : List (Nat × String)) :
    (classifyAndAssemble ext aps pubs q d m0 rp tld mxs).matched
      = classifyMatches (ext.rd d) m0 tld mxs := rfl

theorem classifyAndAssemble_canonical (ext : Externals)
    (aps : List (String × Provider)) (pubs : List String) (q d : String)
    (m0 : List String) (rp : List (Option ProviderInfo)) (tld : List String)
    (mxs : List (Nat × String)) (m : String) (rest : List String)
    (h : classifyMatches (ext.rd d) m0 tld mxs = m :: rest) :
    (classifyAndAssemble ext aps pubs q d m0 rp tld mxs).canonical
      = canonical_email ext.pa ext.ie q (canonicalFlagsOf aps m).lowercase
          (canonicalFlagsOf aps m).strip_periods
          (canonicalFlagsOf aps m).substitute_domains := by
  unfold classifyAndAssemble
  simp only [h]

theorem assocLookup_assocSet {α : Type} (l : List (String × α)) (k : String)
    (v : α) : ∀ k', assocLookup (assocSet l k v) k'
      = if k = k' then some v else assocLookup l k' := by
  induction l with
  | nil =>
      intro k'
      by_cases h : k = k' <;> simp [assocSet, assocLookup, h]
  | cons a rest ih =>
      intro k'
      obtain ⟨ka, va⟩ := a
      by_cases hak : ka = k
      · subst hak
        by_cases hk' : ka = k' <;> simp [assocSet, assocLookup, hk']
      · by_cases hk' : ka = k'
        · have hkk : ¬(k = k') := fun hc => hak (hk'.trans hc.symm)
          have hkk2 : ¬(k' = k) := fun hc => hkk hc.symm
          simp [assocSet, assocLookup, hak, hk', hkk, hkk2]
        · simp [assocSet, assocLookup, hak, hk', ih k']

theorem cacheLookup_cacheStore (cache : Option Cache) (dm : String)
    (r : SniffResult) (d' : String) :
    cacheLookup (cacheStore cache dm r) d'
      = match cache with
        | none => none
        | some c => if dm = d' then some r else assocLookup c d' := by
  cases cache with
  | none => rfl
  | some c => simp [cacheStore, cacheLookup, assocLookup_assocSet]

/-! ### Claims C7, C8: the canonicalizer -/

theorem takeWhile_ne_eq_self (c : Char) :
    ∀ l : List Char, c ∉ l → l.takeWhile (fun x => x ≠ c) = l := by
  intro l
  induction l with
  | nil => intro _; rfl
  | cons a as ih =>
      intro h
      have h1 : a ≠ c := fun hc => h (hc ▸ List.mem_cons_self a as)
      have h2 : c ∉ as := fun hc => h (List.mem_cons_of_mem _ hc)
      simp [List.takeWhile_cons, h1]
      exact fun x hx hxc => h2 (hxc ▸ hx)

theorem filter_ne_eq_self (c : Char) :
    ∀ l : List Char, c ∉ l → l.filter (fun x => x ≠ c) = l := by
  intro l
  induction l with
  | nil => intro _; rfl
  | cons a as ih =>
      intro h
      have h1 : a ≠ c := fun hc => h (hc ▸ List.mem_cons_self a as)
      have h2 : c ∉ as := fun hc => h (List.mem_cons_of_mem _ hc)
      simp [List.filter_cons, h1]
      exact fun x hx hxc => h2 (hxc ▸ hx)

/-- C7: whenever the extracted address passes the validity check and
splits (at the first `@`) into mailbox `m` and domain `d`, the
canonicalizer returns exactly the spec's pipeline — truncate the mailbox
at the first `+` before optionally stripping periods, lowercase the
mailbox only on the `lowercase` flag, always lowercase the domain, and
substitute on the lowercased domain; in particular
`canonical_email` on `Name <a.b+tag@Example.com>` with both flags gives
`ab@example.com` (see the witness). -/
theorem claim_C7 (pa : String → String) (ie : String → Bool)
    (email m d : String) (lc sp : Bool) (sub : List (String × String))
    (hv : ie (pa email) = true) (hsplit : split1 (pa email) '@' = [m, d]) :
    canonical_email pa ie email lc sp sub
      = some (specCanonicalSteps m d lc sp sub) := by
  have e1 : (if '+' ∈ m.data then String.mk (m.data.takeWhile (fun c => c ≠ '+')) else m)
      = String.mk (m.data.takeWhile (fun c => c ≠ '+')) := by
    by_cases hplus : '+' ∈ m.data
    · rw [if_pos hplus]
    · rw [if_neg hplus, takeWhile_ne_eq_self '+' m.data hplus]
  have e2 : ∀ m1 : String,
      (if sp && decide ('.' ∈ m1.data) then String.mk (m1.data.filter (fun c => c ≠ '.')) else m1)
        = (if sp then String.mk (m1.data.filter (fun c => c ≠ '.')) else m1) := by
    intro m1
    cases sp with
    | false => rfl
    | true =>
        by_cases hdot : '.' ∈ m1.data
        · rw [if_pos (by simp [hdot]), if_pos rfl]
        · rw [if_neg (by simp [hdot]), if_pos rfl,
            filter_ne_eq_self '.' m1.data hdot]
  unfold canonical_email
  simp only [hv, hsplit, if_true]
  rw [e1, e2]
  unfold specCanonicalSteps
  rfl

/-- Witness for C7: the claim's concrete round trip. -/
theorem claim_C7_witness :
    canonical_email (fun _ => "a.b+tag@Example.com") (fun _ => true)
      "Name <a.b+tag@Example.com>" true true [] = some "ab@example.com" := by
  have h := claim_C7 (fun _ => "a.b+tag@Example.com") (fun _ => true)
    "Name <a.b+tag@Example.com>" "a.b+tag" "Example.com" true true []
    rfl (by decide)
  exact h.trans (by decide)

/-- C8: whenever the extracted address fails the validity check, the
canonicalizer returns `none` (no canonical form) rather than failing. -/
theorem claim_C8 (pa : String → String) (ie : String → Bool)
    (email : String) (lc sp : Bool) (sub : List (String × String))
    (hv : ie (pa email) = false) :
    canonical_email pa ie email lc sp sub = none := by
  unfold canonical_email
  simp [hv]

/-- Witness for C8 at a concrete input. -/
theorem claim_C8_witness :
    canonical_email (fun s => s) (fun _ => false) "not-an-email" false false []
      = none := by
  exact claim_C8 (fun s => s) (fun _ => false) "not-an-email" false false [] rfl

/-- C6: with a cache miss and no static-map hit, the DNS condition
no-such-domain / no-MX-record / no-nameservers is treated as zero MX
records and never raises; any other DNS-layer failure is swallowed (zero
MX records) when `ignore_errors` is true, and otherwise raises
`MxLookupError` carrying the offending domain, returning no result and
leaving the supplied cache unchanged. -/
theorem claim_C6 (ext : Externals) (aps : List (String × Provider))
    (pmx : WildcardDomainDict String) (pd : List (String × String))
    (pubs : List String) (input : String) (ign : Bool) (cache : Option Cache)
    (uss : Bool)
    (hcache : cacheLookup cache (get_domain ext.pa ext.uh ext.rd input) = none)
    (hstatic : (if uss then assocLookup pd (get_domain ext.pa ext.uh ext.rd input)
        else none) = none) :
    (ext.dns (get_domain ext.pa ext.uh ext.rd input) = DnsOutcome.noRecords →
      ∃ r c', mxsniff ext aps pmx pd pubs input ign cache uss
          = (Except.ok r, c', [get_domain ext.pa ext.uh ext.rd input]) ∧ r.mx = [])
    ∧ (∀ e, ext.dns (get_domain ext.pa ext.uh ext.rd input) = DnsOutcome.failure e →
        (ign = true →
          ∃ r c', mxsniff ext aps pmx pd pubs input ign cache uss
              = (Except.ok r, c', [get_domain ext.pa ext.uh ext.rd input]) ∧ r.mx = [])
        ∧ (ign = false →
          mxsniff ext aps pmx pd pubs input ign cache uss
            = (Except.error ⟨e, get_domain ext.pa ext.uh ext.rd input⟩, cache,
                [get_domain ext.pa ext.uh ext.rd input]))) := by
  constructor
  · intro hdns
    refine ⟨classifyAndAssemble ext aps pubs input
        (get_domain ext.pa ext.uh ext.rd input) [] [] [] [],
      cacheStore cache (get_domain ext.pa ext.uh ext.rd input)
        (classifyAndAssemble ext aps pubs input
          (get_domain ext.pa ext.uh ext.rd input) [] [] [] []), ?_, rfl⟩
    unfold mxsniff
    simp only [hcache, hstatic, hdns]
  · intro e hdns
    constructor
    · intro hign
      subst hign
      refine ⟨classifyAndAssemble ext aps pubs input
          (get_domain ext.pa ext.uh ext.rd input) [] [] [] [],
        cacheStore cache (get_domain ext.pa ext.uh ext.rd input)
          (classifyAndAssemble ext aps pubs input
            (get_domain ext.pa ext.uh ext.rd input) [] [] [] []), ?_, rfl⟩
      unfold mxsniff
      simp only [hcache, hstatic, hdns]
      rfl
    · intro hign
      subst hign
      unfold mxsniff
      simp only [hcache, hstatic, hdns]
      rfl

/-- Witness for C6 at concrete inputs. -/
theorem claim_C6_witness :
    (∃ r c', mxsniff
        { pa := fun s => s, uh := fun s => s, rd := fun s => s,
          ie := fun _ => false, dns := fun _ => DnsOutcome.noRecords }
        [] WildcardDomainDict.empty [] [] "example.com" false none true
        = (Except.ok r, c', ["example.com"]) ∧ r.mx = [])
    ∧ mxsniff
        { pa := fun s => s, uh := fun s => s, rd := fun s => s,
          ie := fun _ => false, dns := fun _ => DnsOutcome.failure "timeout" }
        [] WildcardDomainDict.empty [] [] "example.com" false none true
        = (Except.error ⟨"timeout", "example.com"⟩, none, ["example.com"]) := by
  constructor
  · exact (claim_C6
      { pa := fun s => s, uh := fun s => s, rd := fun s => s,
        ie := fun _ => false, dns := fun _ => DnsOutcome.noRecords }
      [] WildcardDomainDict.empty [] [] "example.com" false none true
      rfl rfl).1 rfl
  · exact ((claim_C6
      { pa := fun s => s, uh := fun s => s, rd := fun s => s,
        ie := fun _ => false, dns := fun _ => DnsOutcome.failure "timeout" }
      [] WildcardDomainDict.empty [] [] "example.com" false none true
      rfl rfl).2 "timeout" rfl).2 rfl

/-- C1: when no provider pattern matches any MX hostname, the appended
classification follows exactly this precedence: `self` if the registrable
domain of the queried domain occurs among the registrable domains
collected from its MX answers; else `nullmx` if MX answers exist and the
first answer after sorting has hostname exactly `.`; else `unknown` if MX
answers exist; else `nomx`. -/
theorem claim_C1 (ext : Externals) (aps : List (String × Provider))
    (pmx : WildcardDomainDict String) (pd : List (String × String))
    (pubs : List String) (input : String) (ign : Bool) (cache : Option Cache)
    (uss : Bool) (raw : List (Nat × String))
    (hcache : cacheLookup cache (get_domain ext.pa ext.uh ext.rd input) = none)
    (hstatic : (if uss then assocLookup pd (get_domain ext.pa ext.uh ext.rd input)
        else none) = none)
    (hdns : ext.dns (get_domain ext.pa ext.uh ext.rd input) = DnsOutcome.answers raw)
    (hnomatch : ∀ a ∈ processAnswers raw, pmx.get a.2 = none) :
    ∃ r c', mxsniff ext aps pmx pd pubs input ign cache uss
        = (Except.ok r, c', [get_domain ext.pa ext.uh ext.rd input])
      ∧ r.matched =
          (if ext.rd (get_domain ext.pa ext.uh ext.rd input)
              ∈ collectTlds ext.rd (processAnswers raw) then ["self"]
           else
             match processAnswers raw with
             | [] => ["nomx"]
             | (_, h) :: _ => if h = "." then ["nullmx"] else ["unknown"]) := by
  have hm := scan_fold_matched_none ext.rd pmx aps (processAnswers raw) hnomatch
    ⟨[], [], []⟩
  have ht := scan_fold_tld ext.rd pmx aps (processAnswers raw) ⟨[], [], []⟩
  refine ⟨classifyAndAssemble ext aps pubs input
      (get_domain ext.pa ext.uh ext.rd input)
      ((processAnswers raw).foldl (scanStep ext.rd pmx aps) ⟨[], [], []⟩).matched
      ((processAnswers raw).foldl (scanStep ext.rd pmx aps) ⟨[], [], []⟩).rproviders
      ((processAnswers raw).foldl (scanStep ext.rd pmx aps) ⟨[], [], []⟩).tld
      (processAnswers raw),
    cacheStore cache (get_domain ext.pa ext.uh ext.rd input)
      (classifyAndAssemble ext aps pubs input
        (get_domain ext.pa ext.uh ext.rd input)
        ((processAnswers raw).foldl (scanStep ext.rd pmx aps) ⟨[], [], []⟩).matched
        ((processAnswers raw).foldl (scanStep ext.rd pmx aps) ⟨[], [], []⟩).rproviders
        ((processAnswers raw).foldl (scanStep ext.rd pmx aps) ⟨[], [], []⟩).tld
        (processAnswers raw)), ?_, ?_⟩
  · unfold mxsniff
    simp only [hcache, hstatic, hdns]
  · rw [classifyAndAssemble_matched, hm.1, classifyMatches_empty, ht]
    rfl

/-- Witness for C1: a lone null-MX answer classifies as `nullmx`. -/
theorem claim_C1_witness :
    ∃ r c', mxsniff
        { pa := fun s => s, uh := fun s => s, rd := fun s => s,
          ie := fun _ => false, dns := fun _ => DnsOutcome.answers [(0, ".")] }
        [] WildcardDomainDict.empty [] [] "example.com" false none true
        = (Except.ok r, c', ["example.com"]) ∧ r.matched = ["nullmx"] := by
  obtain ⟨r, c', h1, h2⟩ := claim_C1
    { pa := fun s => s, uh := fun s => s, rd := fun s => s,
      ie := fun _ => false, dns := fun _ => DnsOutcome.answers [(0, ".")] }
    [] WildcardDomainDict.empty [] [] "example.com" false none true [(0, ".")]
    rfl rfl rfl (by decide)
  refine ⟨r, c', h1, h2.trans ?_⟩
  decide

/-- The flat well-known-mailbox-domain map `provider_domains`, as
`__populate_dicts` builds it; only the entries of `providers_with_domains`
contribute to it. -/
def provider_domains_data : List (String × String) :=
  (populate_dicts providers_with_domains).2


/-- C4: on a cache miss, when the static fast path is enabled and the
domain is in the well-known mailbox-domain map, the result's match is
exactly the one-element list with that provider, no DNS query is issued
(the query log is empty) and the MX list is empty; and for `gmail.com`
with the real table the match is `['google-gmail']` with `public` true. -/
theorem claim_C4 :
    (∀ (ext : Externals) (aps : List (String × Provider))
        (pmx : WildcardDomainDict String) (pd : List (String × String))
        (pubs : List String) (input : String) (ign : Bool) (cache : Option Cache)
        (prov : String),
      cacheLookup cache (get_domain ext.pa ext.uh ext.rd input) = none →
      assocLookup pd (get_domain ext.pa ext.uh ext.rd input) = some prov →
      ∃ r c', mxsniff ext aps pmx pd pubs input ign cache true
          = (Except.ok r, c', [])
        ∧ r.matched = [prov] ∧ r.mx = [])
    ∧ (∀ (ext : Externals) (pmx : WildcardDomainDict String) (ign : Bool)
        (cache : Option Cache),
      cacheLookup cache "gmail.com" = none →
      ∃ r c', mxsniff ext providers_with_domains pmx provider_domains_data
          public_domains_data "gmail.com" ign cache true = (Except.ok r, c', [])
        ∧ r.matched = ["google-gmail"] ∧ r.mx = [] ∧ r.public = true) := by
  constructor
  · intro ext aps pmx pd pubs input ign cache prov hcache hstatic
    have hs : (if (true : Bool) = true then
        assocLookup pd (get_domain ext.pa ext.uh ext.rd input) else none)
        = some prov := by rw [if_pos rfl, hstatic]
    refine ⟨classifyAndAssemble ext aps pubs input
        (get_domain ext.pa ext.uh ext.rd input) [prov] [provider_info aps prov]
        [] [],
      cacheStore cache (get_domain ext.pa ext.uh ext.rd input)
        (classifyAndAssemble ext aps pubs input
          (get_domain ext.pa ext.uh ext.rd input) [prov] [provider_info aps prov]
          [] []), ?_, rfl, rfl⟩
    unfold mxsniff
    simp only [hcache, ite_true, hstatic]
  · intro ext pmx ign cache hcache
    have hgd : get_domain ext.pa ext.uh ext.rd "gmail.com" = "gmail.com" := rfl
    refine ⟨classifyAndAssemble ext providers_with_domains public_domains_data
        "gmail.com" "gmail.com" ["google-gmail"]
        [provider_info providers_with_domains "google-gmail"] [] [],
      cacheStore cache "gmail.com"
        (classifyAndAssemble ext providers_with_domains public_domains_data
          "gmail.com" "gmail.com" ["google-gmail"]
          [provider_info providers_with_domains "google-gmail"] [] []),
      ?_, rfl, rfl, rfl⟩
    unfold mxsniff
    have hs2 : assocLookup provider_domains_data "gmail.com" = some "google-gmail" := rfl
    simp only [hgd, hcache, ite_true, hs2]

/-- Witness for C4 at concrete inputs. -/
theorem claim_C4_witness :
    (∃ r c', mxsniff
        { pa := fun s => s, uh := fun s => s, rd := fun s => s,
          ie := fun _ => false, dns := fun _ => DnsOutcome.failure "unused" }
        [] WildcardDomainDict.empty [("example.com", "prov1")] [] "example.com"
        false none true = (Except.ok r, c', [])
      ∧ r.matched = ["prov1"] ∧ r.mx = [])
    ∧ (∃ r c', mxsniff
        { pa := fun s => s, uh := fun s => s, rd := fun s => s,
          ie := fun _ => false, dns := fun _ => DnsOutcome.failure "unused" }
        providers_with_domains WildcardDomainDict.empty provider_domains_data
        public_domains_data "gmail.com" false none true = (Except.ok r, c', [])
      ∧ r.matched = ["google-gmail"] ∧ r.mx = [] ∧ r.public = true) := by
  constructor
  · exact claim_C4.1
      { pa := fun s => s, uh := fun s => s, rd := fun s => s,
        ie := fun _ => false, dns := fun _ => DnsOutcome.failure "unused" }
      [] WildcardDomainDict.empty [("example.com", "prov1")] [] "example.com"
      false none "prov1" rfl rfl
  · exact claim_C4.2
      { pa := fun s => s, uh := fun s => s, rd := fun s => s,
        ie := fun _ => false, dns := fun _ => DnsOutcome.failure "unused" }
      WildcardDomainDict.empty false none rfl

/-- Helper for C9: any freshly assembled result has a non-empty match
list, storing it preserves the cache invariant, and its canonical email
comes from the first match's flags. -/
theorem fresh_ok_invariant (ext : Externals) (aps : List (String × Provider))
    (pubs : List String) (input dm : String) (m0 : List String)
    (rp : List (Option ProviderInfo)) (tld : List String)
    (mxs : List (Nat × String)) (cache : Option Cache)
    (hc : ∀ d0 r0, cacheLookup cache d0 = some r0 → r0.matched ≠ []) :
    (classifyAndAssemble ext aps pubs input dm m0 rp tld mxs).matched ≠ []
    ∧ (∀ d0 r0, cacheLookup (cacheStore cache dm
          (classifyAndAssemble ext aps pubs input dm m0 rp tld mxs)) d0
            = some r0 → r0.matched ≠ [])
    ∧ (∃ m rest,
        (classifyAndAssemble ext aps pubs input dm m0 rp tld mxs).matched
          = m :: rest
        ∧ (classifyAndAssemble ext aps pubs input dm m0 rp tld mxs).canonical
            = canonical_email ext.pa ext.ie input
                (canonicalFlagsOf aps m).lowercase
                (canonicalFlagsOf aps m).strip_periods
                (canonicalFlagsOf aps m).substitute_domains) := by
  have hne := classifyMatches_ne_nil (ext.rd dm) m0 tld mxs
  refine ⟨?_, ?_, ?_⟩
  · rw [classifyAndAssemble_matched]
    exact hne
  · intro d0 r0 h0
    cases cache with
    | none => simp [cacheStore, cacheLookup] at h0
    | some c =>
        simp only [cacheLookup_cacheStore] at h0
        by_cases hd : dm = d0
        · rw [if_pos hd] at h0
          have := Option.some.inj h0
          rw [← this, classifyAndAssemble_matched]
          exact hne
        · rw [if_neg hd] at h0
          exact hc d0 r0 h0
  · cases hm2 : classifyMatches (ext.rd dm) m0 tld mxs with
    | nil => exact absurd hm2 hne
    | cons m rest =>
        exact ⟨m, rest, by rw [classifyAndAssemble_matched, hm2],
          classifyAndAssemble_canonical ext aps pubs input dm m0 rp tld mxs
            m rest hm2⟩


/-- C9: provided every cached value has a non-empty match list, every
result `mxsniff` returns has a non-empty match list, the cache it leaves
behind again only holds such values, and on the fresh (non-cache-hit) path
the canonical email is computed from the canonicalization flags of the
FIRST element of the match list (the empty-match fallback branch of lines
298-299 is unreachable). -/
theorem claim_C9 (ext : Externals) (aps : List (String × Provider))
    (pmx : WildcardDomainDict String) (pd : List (String × String))
    (pubs : List String) (input : String) (ign : Bool) (cache : Option Cache)
    (uss : Bool)
    (hc : ∀ d0 r0, cacheLookup cache d0 = some r0 → r0.matched ≠ [])
    (r : SniffResult) (c' : Option Cache) (q : List String)
    (hok : mxsniff ext aps pmx pd pubs input ign cache uss
        = (Except.ok r, c', q)) :
    r.matched ≠ []
    ∧ (∀ d0 r0, cacheLookup c' d0 = some r0 → r0.matched ≠ [])
    ∧ (cacheLookup cache (get_domain ext.pa ext.uh ext.rd input) = none →
        ∃ m rest, r.matched = m :: rest
          ∧ r.canonical = canonical_email ext.pa ext.ie input
              (canonicalFlagsOf aps m).lowercase
              (canonicalFlagsOf aps m).strip_periods
              (canonicalFlagsOf aps m).substitute_domains) := by
  unfold mxsniff at hok
  cases hcl : cacheLookup cache (get_domain ext.pa ext.uh ext.rd input) with
  | some r0 =>
      simp only [hcl] at hok
      simp only [Prod.mk.injEq, Except.ok.injEq] at hok
      obtain ⟨h1, h2, h3⟩ := hok
      subst h1; subst h2
      refine ⟨?_, hc, ?_⟩
      · show r0.matched ≠ []
        exact hc _ _ hcl
      · intro hnone
        exact Option.noConfusion hnone
  | none =>
      simp only [hcl] at hok
      cases hst : (if uss = true then
          assocLookup pd (get_domain ext.pa ext.uh ext.rd input) else none) with
      | some prov =>
          simp only [hst] at hok
          simp only [Prod.mk.injEq, Except.ok.injEq] at hok
          obtain ⟨h1, h2, h3⟩ := hok
          subst h1; subst h2
          have inv := fresh_ok_invariant ext aps pubs input
            (get_domain ext.pa ext.uh ext.rd input) [prov]
            [provider_info aps prov] [] [] cache hc
          exact ⟨inv.1, inv.2.1, fun _ => inv.2.2⟩
      | none =>
          simp only [hst] at hok
          cases hdns : ext.dns (get_domain ext.pa ext.uh ext.rd input) with
          | answers raw =>
              simp only [hdns] at hok
              simp only [Prod.mk.injEq, Except.ok.injEq] at hok
              obtain ⟨h1, h2, h3⟩ := hok
              subst h1; subst h2
              have inv := fresh_ok_invariant ext aps pubs input
                (get_domain ext.pa ext.uh ext.rd input)
                ((processAnswers raw).foldl (scanStep ext.rd pmx aps)
                  ⟨[], [], []⟩).matched
                ((processAnswers raw).foldl (scanStep ext.rd pmx aps)
                  ⟨[], [], []⟩).rproviders
                ((processAnswers raw).foldl (scanStep ext.rd pmx aps)
                  ⟨[], [], []⟩).tld
                (processAnswers raw) cache hc
              exact ⟨inv.1, inv.2.1, fun _ => inv.2.2⟩
          | noRecords =>
              simp only [hdns] at hok
              simp only [Prod.mk.injEq, Except.ok.injEq] at hok
              obtain ⟨h1, h2, h3⟩ := hok
              subst h1; subst h2
              have inv := fresh_ok_invariant ext aps pubs input
                (get_domain ext.pa ext.uh ext.rd input) [] [] [] [] cache hc
              exact ⟨inv.1, inv.2.1, fun _ => inv.2.2⟩
          | failure e =>
              simp only [hdns] at hok
              cases ign with
              | true =>
                  rw [if_pos rfl] at hok
                  simp only [Prod.mk.injEq, Except.ok.injEq] at hok
                  obtain ⟨h1, h2, h3⟩ := hok
                  subst h1; subst h2
                  have inv := fresh_ok_invariant ext aps pubs input
                    (get_domain ext.pa ext.uh ext.rd input) [] [] [] [] cache hc
                  exact ⟨inv.1, inv.2.1, fun _ => inv.2.2⟩
              | false => simp at hok

/-- Witness for C9 at a concrete input: the `nomx` result of a domain
without records has a non-empty match list. -/
theorem claim_C9_witness :
    ({ query := "example.com", domain := "example.com", matched := ["nomx"],
       mx := [], providers := [], public := false,
       canonical := none } : SniffResult).matched ≠ [] := by
  have h := claim_C9
    { pa := fun s => s, uh := fun s => s, rd := fun s => s,
      ie := fun _ => false, dns := fun _ => DnsOutcome.noRecords }
    [] WildcardDomainDict.empty [] [] "example.com" false none true
    (fun _ _ hx => Option.noConfusion hx)
    { query := "example.com", domain := "example.com", matched := ["nomx"],
      mx := [], providers := [], public := false, canonical := none }
    none ["example.com"] (by decide)
  exact h.1

/-- Helper for C5: the shape shared by all fresh (non-cache-hit) branches
of a call with a supplied cache. -/
theorem fresh_branch_exists (c0 : Cache) (dm input : String) (R : SniffResult)
    (hq : R.query = input) (q : List String) (hlen : q.length ≤ 1)
    (P Q : Prop) (himp : P → Q → q = [dm]) :
    ∃ c1 r1, cacheStore (some c0) dm R = some c1
      ∧ assocLookup c1 dm = some r1
      ∧ R = { r1 with query := input }
      ∧ q.length ≤ 1
      ∧ (P → Q → q = [dm]) := by
  refine ⟨assocSet c0 dm R, R, rfl, ?_, ?_, hlen, himp⟩
  · rw [assocLookup_assocSet, if_pos rfl]
  · cases R
    cases hq
    rfl

/-- Helper for C5: any successful call with a supplied cache leaves a
cache holding the resolved domain, returns that stored value with its
`query` field set to the input, and issues at most one DNS query (exactly
one when both the cache and the static map miss). -/
theorem mxsniff_ok_cached (ext : Externals) (aps : List (String × Provider))
    (pmx : WildcardDomainDict String) (pd : List (String × String))
    (pubs : List String) (input : String) (ign : Bool) (uss : Bool) (c0 : Cache)
    (r : SniffResult) (oc : Option Cache) (q : List String)
    (hok : mxsniff ext aps pmx pd pubs input ign (some c0) uss
        = (Except.ok r, oc, q)) :
    ∃ c1 r1, oc = some c1
      ∧ assocLookup c1 (get_domain ext.pa ext.uh ext.rd input) = some r1
      ∧ r = { r1 with query := input }
      ∧ q.length ≤ 1
      ∧ (cacheLookup (some c0) (get_domain ext.pa ext.uh ext.rd input) = none →
          (if uss then assocLookup pd (get_domain ext.pa ext.uh ext.rd input)
            else none) = none →
          q = [get_domain ext.pa ext.uh ext.rd input]) := by
  unfold mxsniff at hok
  cases hcl : cacheLookup (some c0) (get_domain ext.pa ext.uh ext.rd input) with
  | some r0 =>
      simp only [hcl, Prod.mk.injEq, Except.ok.injEq] at hok
      obtain ⟨h1, h2, h3⟩ := hok
      subst h1; subst h2; subst h3
      exact ⟨c0, r0, rfl, hcl, rfl, by decide,
        fun hnone _ => Option.noConfusion hnone⟩
  | none =>
      simp only [hcl] at hok
      cases hst : (if uss = true then
          assocLookup pd (get_domain ext.pa ext.uh ext.rd input) else none) with
      | some prov =>
          simp only [hst, Prod.mk.injEq, Except.ok.injEq] at hok
          obtain ⟨h1, h2, h3⟩ := hok
          subst h1; subst h2; subst h3
          exact fresh_branch_exists c0 _ input _ rfl [] (by decide) _ _
            (fun _ hst2 => Option.noConfusion hst2)
      | none =>
          simp only [hst] at hok
          cases hdns : ext.dns (get_domain ext.pa ext.uh ext.rd input) with
          | answers raw =>
              simp only [hdns, Prod.mk.injEq, Except.ok.injEq] at hok
              obtain ⟨h1, h2, h3⟩ := hok
              subst h1; subst h2; subst h3
              exact fresh_branch_exists c0 _ input _ rfl
                [get_domain ext.pa ext.uh ext.rd input] (Nat.le_refl 1) _ _
                (fun _ _ => rfl)
          | noRecords =>
              simp only [hdns, Prod.mk.injEq, Except.ok.injEq] at hok
              obtain ⟨h1, h2, h3⟩ := hok
              subst h1; subst h2; subst h3
              exact fresh_branch_exists c0 _ input _ rfl
                [get_domain ext.pa ext.uh ext.rd input] (Nat.le_refl 1) _ _
                (fun _ _ => rfl)
          | failure e =>
              simp only [hdns] at hok
              cases ign with
              | true =>
                  rw [if_pos rfl] at hok
                  simp only [Prod.mk.injEq, Except.ok.injEq] at hok
                  obtain ⟨h1, h2, h3⟩ := hok
                  subst h1; subst h2; subst h3
                  exact fresh_branch_exists c0 _ input _ rfl
                    [get_domain ext.pa ext.uh ext.rd input] (Nat.le_refl 1) _ _
                    (fun _ _ => rfl)
              | false => simp at hok
/-- C5 amended: with a supplied cache and two inputs normalizing to the
same domain, AT MOST one DNS query is issued across both calls - exactly
one when the first call misses both the cache and the static-domain map
(zero on a cache hit or static-map hit, refuting the claim's "exactly
one"); the second call issues no DNS query and returns the first call's
result with its `query` field replaced by the second input; and after the
first call the cache holds the resolved domain's result, which equals the
first result up to the `query` field. -/
theorem claim_C5_amended (ext : Externals) (aps : List (String × Provider))
    (pmx : WildcardDomainDict String) (pd : List (String × String))
    (pubs : List String) (in1 in2 : String) (ign : Bool) (uss : Bool)
    (c0 : Cache) (r1 : SniffResult) (oc1 : Option Cache) (q1 : List String)
    (h12 : get_domain ext.pa ext.uh ext.rd in2
        = get_domain ext.pa ext.uh ext.rd in1)
    (hok : mxsniff ext aps pmx pd pubs in1 ign (some c0) uss
        = (Except.ok r1, oc1, q1)) :
    ∃ c1 r0, oc1 = some c1
      ∧ assocLookup c1 (get_domain ext.pa ext.uh ext.rd in1) = some r0
      ∧ r1 = { r0 with query := in1 }
      ∧ q1.length ≤ 1
      ∧ (cacheLookup (some c0) (get_domain ext.pa ext.uh ext.rd in1) = none →
          (if uss then assocLookup pd (get_domain ext.pa ext.uh ext.rd in1)
            else none) = none →
          q1 = [get_domain ext.pa ext.uh ext.rd in1])
      ∧ mxsniff ext aps pmx pd pubs in2 ign (some c1) uss
          = (Except.ok { r1 with query := in2 }, some c1, []) := by
  obtain ⟨c1, r0, hoc, hlk, hr, hq, hq1⟩ :=
    mxsniff_ok_cached ext aps pmx pd pubs in1 ign uss c0 r1 oc1 q1 hok
  refine ⟨c1, r0, hoc, hlk, hr, hq, hq1, ?_⟩
  have hcl2 : cacheLookup (some c1) (get_domain ext.pa ext.uh ext.rd in2)
      = some r0 := by
    rw [h12]
    exact hlk
  unfold mxsniff
  simp only [hcl2]
  rw [hr]

/-- DNS oracle for the C5 counterexample (it would answer, but is never
consulted). -/
def extC5x : Externals :=
  { pa := fun s => s, uh := fun s => s, rd := fun s => s, ie := fun _ => false,
    dns := fun _ => DnsOutcome.answers [(10, "mx.example.com")] }

/-- A prefilled cache entry for the C5 counterexample. -/
def rC5x : SniffResult :=
  { query := "example.com", domain := "example.com", matched := ["unknown"],
    mx := [(10, "mx.example.com")], providers := [], public := false,
    canonical := none }

/-- C5 as stated fails: with a supplied cache that already holds the
resolved domain, both calls are cache hits, so zero DNS queries are
issued in total - not exactly one. -/
theorem claim_C5_counterexample :
    ¬ (((mxsniff extC5x [] WildcardDomainDict.empty [] [] "example.com" false
          (some [("example.com", rC5x)]) true).2.2).length
        + ((mxsniff extC5x [] WildcardDomainDict.empty [] [] "example.com" false
            (mxsniff extC5x [] WildcardDomainDict.empty [] [] "example.com"
              false (some [("example.com", rC5x)]) true).2.1 true).2.2).length
        = 1) := by decide

/-- DNS oracle for the C5 witness. -/
def extC5w : Externals :=
  { pa := fun s => s, uh := fun s => s, rd := fun s => s, ie := fun _ => false,
    dns := fun _ => DnsOutcome.noRecords }

/-- Witness for the amended C5 at concrete inputs: a fresh first call
issues one DNS query, stores its result, and the second call is a pure
cache hit. -/
theorem claim_C5_witness :
    ∃ c1 r0,
      (some [("example.com",
        ({ query := "example.com", domain := "example.com", matched := ["nomx"],
           mx := [], providers := [], public := false,
           canonical := none } : SniffResult))] : Option Cache) = some c1
      ∧ assocLookup c1 "example.com" = some r0
      ∧ ({ query := "example.com", domain := "example.com", matched := ["nomx"],
           mx := [], providers := [], public := false,
           canonical := none } : SniffResult) = { r0 with query := "example.com" }
      ∧ (["example.com"] : List String).length ≤ 1
      ∧ (cacheLookup (some ([] : Cache)) "example.com" = none →
          (if true then assocLookup ([] : List (String × String)) "example.com"
            else none) = none →
          (["example.com"] : List String) = ["example.com"])
      ∧ mxsniff extC5w [] WildcardDomainDict.empty [] [] "example.com" false
          (some c1) true
          = (Except.ok
              { query := "example.com", domain := "example.com",
                matched := ["nomx"], mx := [], providers := [], public := false,
                canonical := none },
             some c1, []) := by
  exact claim_C5_amended extC5w [] WildcardDomainDict.empty [] [] "example.com"
    "example.com" false true []
    { query := "example.com", domain := "example.com", matched := ["nomx"],
      mx := [], providers := [], public := false, canonical := none }
    (some [("example.com",
      { query := "example.com", domain := "example.com", matched := ["nomx"],
        mx := [], providers := [], public := false, canonical := none })])
    ["example.com"] rfl (by decide)

end Mxsniff
